import Mathlib

/-!
Shallow embedding of the `audio-recorder` repository (Go): the `record`
command's `Run` function, the AIFF chunk writers (`writeFormChunk`,
`writeCommonChunk`, `writeSoundChunk`), the deferred size-patch
("finalize") step, and the capture loop.

The output file is modelled as a byte list plus a write cursor;
`binary.Write` with `binary.BigEndian` on `int32`/`int16` values becomes
big-endian byte serialization modulo 2^32 / 2^16.  Go `defer` semantics
(deferred functions run in LIFO registration order on every `return` and
on normal fall-through) are modelled explicitly by the teardown-action
traces of `runFull`.
-/

namespace AudioRecorder

/-- Big-endian serialization of a value written as a Go `int32`
(two's complement, 4 bytes), as `binary.Write(f, binary.BigEndian, int32(v))`
produces. -/
def be32 (v : Int) : List Nat :=
  let n := (v % (2 ^ 32 : Int)).toNat
  [n / 2 ^ 24 % 256, n / 2 ^ 16 % 256, n / 2 ^ 8 % 256, n % 256]

/-- Big-endian serialization of a value written as a Go `int16` (2 bytes). -/
def be16 (v : Int) : List Nat :=
  let n := (v % (2 ^ 16 : Int)).toNat
  [n / 2 ^ 8 % 256, n % 256]

/-- ASCII bytes of a string, as Go `f.WriteString` writes them. -/
def ascii (s : String) : List Nat :=
  s.data.map Char.toNat

/-- An open seekable file: its byte contents and the write cursor. -/
structure File where
  data : List Nat
  pos : Nat
deriving DecidableEq, Repr

/-- A freshly created (truncated) file, as produced by `os.Create`. -/
def File.empty : File :=
  ⟨[], 0⟩

/-- Write bytes at the current cursor, overwriting existing bytes and
extending the file if the write runs past the end; the cursor advances
past the written bytes. -/
def File.write (f : File) (bs : List Nat) : File :=
  ⟨f.data.take f.pos ++ List.replicate (f.pos - f.data.length) 0 ++ bs ++
      f.data.drop (f.pos + bs.length),
    f.pos + bs.length⟩

/-- `f.Seek(off, 0)`: set the cursor to an absolute offset. -/
def File.seek (f : File) (off : Nat) : File :=
  ⟨f.data, off⟩

/-- `writeFormChunk` (lines 199-218): "FORM", a 4-byte big-endian zero
placeholder for total data bytes, then "AIFF". -/
def writeFormChunk (f : File) : File :=
  ((f.write (ascii "FORM")).write (be32 0)).write (ascii "AIFF")

/-- `writeCommonChunk` (lines 220-250): "COMM", chunk size 18, channel
count 1, sample-count placeholder 0, bits per sample 32, and the 10-byte
extended-precision encoding of the 44100 Hz sample rate. -/
def writeCommonChunk (f : File) : File :=
  let sr : List Nat := [0x40, 0x0e, 0xac, 0x44, 0, 0, 0, 0, 0, 0]
  (((((f.write (ascii "COMM")).write (be32 18)).write (be16 1)).write
      (be32 0)).write (be16 32)).write sr

/-- `writeSoundChunk` (lines 252-272): "SSND" followed by three 4-byte
big-endian zeros (chunk-size placeholder, offset, block size). -/
def writeSoundChunk (f : File) : File :=
  (((f.write (ascii "SSND")).write (be32 0)).write (be32 0)).write (be32 0)

/-- The file contents after the three header chunks were written into a
fresh file, before any sample data. -/
def headerFile : File :=
  writeSoundChunk (writeCommonChunk (writeFormChunk File.empty))

/-- The deferred size-patch step of `Run` (lines 92-110): seek to offset 4
and write `int32(50*numSamples)`, seek to offset 22 and write
`int32(numSamples)`, seek to offset 42 and write `int32(4*numSamples+8)`. -/
def finalize (numSamples : Nat) (f : File) : File :=
  let totalBytes := 50 * numSamples
  (((((f.seek 4).write (be32 totalBytes)).seek 22).write
      (be32 numSamples)).seek 42).write (be32 (4 * numSamples + 8))

/-- `binary.Write(f, binary.BigEndian, in)` for the `[]int32` frame buffer:
each sample serialized big-endian, written in order at the cursor. -/
def writeBuf (f : File) (buf : List Int) : File :=
  f.write (buf.map be32).flatten

/-- One event observed by the capture loop's `select` on a tick: a line
arrived on stdin (`done`), an OS signal arrived (`sig`), or neither is
ready and the `default` branch runs one capture tick.  A tick carries
whether `stream.Read` succeeded and the samples it put in the buffer. -/
inductive Ev
  | done
  | sig
  | tick (readOk : Bool) (newBuf : List Int)
deriving DecidableEq, Repr

/-- Well-formedness of an event: the device always fills the whole 64-slot
buffer, so a tick's refill has length 64. -/
def Ev.wf : Ev → Prop
  | Ev.tick _ newBuf => newBuf.length = 64
  | _ => True

instance (e : Ev) : Decidable e.wf := by
  cases e <;> simp [Ev.wf] <;> infer_instance

/-- How the capture loop ended: `clean` for the stdin line (`break recording`),
`signal` for the OS signal (`return`); `ranOut` is the modelling artifact of
an exhausted event list (the real loop blocks forever instead). -/
inductive Stop
  | clean
  | signal
  | ranOut
deriving DecidableEq, Repr

/-- Mutable state of the capture loop: the output file, the `in` buffer,
and the `numSamples` counter. -/
structure LoopState where
  file : File
  buf : List Int
  numSamples : Nat
deriving DecidableEq, Repr

/-- The `default` branch of one loop iteration (lines 186-194): refresh the
buffer if the read succeeded (on error the stale buffer is kept and the
error only logged), append the buffer to the file, and increment
`numSamples` by the buffer length. -/
def tickStep (st : LoopState) (readOk : Bool) (newBuf : List Int) : LoopState :=
  let buf := if readOk then newBuf else st.buf
  ⟨writeBuf st.file buf, buf, st.numSamples + buf.length⟩

/-- The `recording:` loop (lines 179-196): a `done` event breaks out of the
loop, a `sig` event returns from `Run` at once, otherwise one tick runs. -/
def loop : List Ev → LoopState → LoopState × Stop
  | [], st => (st, Stop.ranOut)
  | Ev.done :: _, st => (st, Stop.clean)
  | Ev.sig :: _, st => (st, Stop.signal)
  | Ev.tick readOk newBuf :: rest, st => loop rest (tickStep st readOk newBuf)

/-- Number of capture ticks the loop executes on an event list: the ticks
before the first `done` or `sig`. -/
def ticksRun : List Ev → Nat
  | [] => 0
  | Ev.done :: _ => 0
  | Ev.sig :: _ => 0
  | Ev.tick _ _ :: rest => ticksRun rest + 1

/-- Replace every tick's read result with success, keeping the refill data:
the error-free run with the same ticks. -/
def scrubReadErrors : List Ev → List Ev
  | [] => []
  | Ev.done :: rest => Ev.done :: rest
  | Ev.sig :: rest => Ev.sig :: rest
  | Ev.tick _ newBuf :: rest => Ev.tick true newBuf :: scrubReadErrors rest

/-- The initial loop state: header written, 64-slot zeroed buffer
(`make([]int32, 64)`), counter at 0. -/
def initState : LoopState :=
  ⟨headerFile, List.replicate 64 0, 0⟩

/-- Success/failure of each fallible setup step of `Run`, in source order:
`os.Create`, the three header-chunk writes, the device-library init,
`OpenDefaultStream`, `stream.Start`. -/
structure SetupFlags where
  createOk : Bool
  formOk : Bool
  commOk : Bool
  soundOk : Bool
  paInitOk : Bool
  streamOpenOk : Bool
  streamStartOk : Bool
deriving DecidableEq, Repr

/-- Success/failure of each of the six seek/write operations inside the
size-patch defer (lines 98-103), in source order. -/
structure FinFlags where
  seekTotalOk : Bool
  writeTotalOk : Bool
  seekCountOk : Bool
  writeCountOk : Bool
  seekSndOk : Bool
  writeSndOk : Bool
deriving DecidableEq, Repr

/-- Success/failure of each deferred teardown step's own operation:
`stream.Stop`, `stream.Close`, `portaudio.Terminate`, the six patch
operations, `f.Close`. -/
structure TeardownFlags where
  stopOk : Bool
  closeStreamOk : Bool
  termOk : Bool
  fin : FinFlags
  closeFileOk : Bool
deriving DecidableEq, Repr

/-- The six operations of the size-patch defer, in source order:
`f.Seek(4,0)`, the total-bytes write, `f.Seek(22,0)`, the sample-count
write, `f.Seek(42,0)`, the sound-chunk-size write. -/
inductive FOp
  | seekTotal
  | writeTotal
  | seekCount
  | writeCount
  | seekSnd
  | writeSnd
deriving DecidableEq, Repr

/-- The statements of the size-patch defer body, in source order, each
paired with whether its operation succeeds. -/
def finalizeStmts (fl : FinFlags) : List (FOp × Bool) :=
  [(FOp.seekTotal, fl.seekTotalOk), (FOp.writeTotal, fl.writeTotalOk),
   (FOp.seekCount, fl.seekCountOk), (FOp.writeCount, fl.writeCountOk),
   (FOp.seekSnd, fl.seekSndOk), (FOp.writeSnd, fl.writeSndOk)]

/-- Execute straight-line statements that each reassign the one shared
`err` variable: every statement runs regardless of the current `err`
(there is no branch between statements), and each reassignment discards
the previous value.  Returns the executed statements with their own
results and the final value of `err`. -/
def runStmts : List (FOp × Bool) → Bool → List (FOp × Bool) × Bool
  | [], err => ([], err)
  | (op, ok) :: rest, _ =>
    let r := runStmts rest ok
    ((op, ok) :: r.1, r.2)

/-- The size-patch defer body (lines 92-110): the six seek/write statements
run unconditionally, each overwriting `err`, and the `if err != nil` check
at line 105 sees whatever `err` holds after the last statement.  `err`
enters the defer holding `nil` (the successful `os.Create` result). -/
def finalizeReport (fl : FinFlags) : List (FOp × Bool) × Bool :=
  runStmts (finalizeStmts fl) true

/-- A deferred teardown step of `Run`. -/
inductive Action
  | streamStop
  | streamClose
  | paTerminate
  | patchSizes
  | closeFile
deriving DecidableEq, Repr

/-- Result of one invocation of `Run`: the deferred teardown steps that
executed, in execution order, each with the success value its log line
reports; how the loop stopped (`none` when the loop was never entered);
and the final `numSamples`. -/
structure RunResult where
  actions : List (Action × Bool)
  stop : Option Stop
  numSamples : Nat
deriving DecidableEq, Repr

/-- Control flow of `Run` (lines 37-197).  Go runs deferred functions in
LIFO registration order on every `return` and on normal fall-through, so
each early `return` executes exactly the defers registered so far, and
both loop exits (`break recording` on stdin, `return` on a signal) execute
all five.  Defers are registered at lines 54 (`f.Close`), 92 (size patch),
120 (`portaudio.Terminate`), 141 (`stream.Close`), 157 (`stream.Stop`). -/
def runFull (fl : SetupFlags) (td : TeardownFlags) (evs : List Ev) : RunResult :=
  if fl.createOk = false then
    ⟨[], none, 0⟩
  else if fl.formOk = false then
    ⟨[(Action.closeFile, td.closeFileOk)], none, 0⟩
  else if fl.commOk = false then
    ⟨[(Action.closeFile, td.closeFileOk)], none, 0⟩
  else if fl.soundOk = false then
    ⟨[(Action.closeFile, td.closeFileOk)], none, 0⟩
  else if fl.paInitOk = false then
    ⟨[(Action.patchSizes, (finalizeReport td.fin).2),
      (Action.closeFile, td.closeFileOk)], none, 0⟩
  else if fl.streamOpenOk = false then
    ⟨[(Action.paTerminate, td.termOk),
      (Action.patchSizes, (finalizeReport td.fin).2),
      (Action.closeFile, td.closeFileOk)], none, 0⟩
  else if fl.streamStartOk = false then
    ⟨[(Action.streamClose, td.closeStreamOk),
      (Action.paTerminate, td.termOk),
      (Action.patchSizes, (finalizeReport td.fin).2),
      (Action.closeFile, td.closeFileOk)], none, 0⟩
  else
    let r := loop evs initState
    ⟨[(Action.streamStop, td.stopOk),
      (Action.streamClose, td.closeStreamOk),
      (Action.paTerminate, td.termOk),
      (Action.patchSizes, (finalizeReport td.fin).2),
      (Action.closeFile, td.closeFileOk)], some r.2, r.1.numSamples⟩

/-- The final file contents of a recording session whose file I/O all
succeeded: the capture loop appends to the header file, then the deferred
size patch runs with the final counter value. -/
def sessionFile (evs : List Ev) : File :=
  finalize (loop evs initState).1.numSamples (loop evs initState).1.file

/-- The output filename (lines 38-42): the Unix timestamp with the `.aiff`
extension when no name was supplied, otherwise the supplied name with the
extension appended. -/
def outputFileName (base : String) (unixTs : Int) : String :=
  if base = "" then toString unixTs ++ ".aiff" else base ++ ".aiff"

/-- All setup steps succeed. -/
def allSetupOk : SetupFlags :=
  ⟨true, true, true, true, true, true, true⟩

/-- All six patch operations succeed. -/
def allFinOk : FinFlags :=
  ⟨true, true, true, true, true, true⟩

/-- All teardown steps succeed. -/
def allTdOk : TeardownFlags :=
  ⟨true, true, true, allFinOk, true⟩

/-- Teardown flags where the stream stop, the device-library teardown and
one patch write fail while everything else succeeds. -/
def tdMixed : TeardownFlags :=
  ⟨false, true, false, ⟨true, false, true, true, false, true⟩, true⟩

/-- Patch flags where the very first seek fails and everything after it
succeeds. -/
def earlySeekFails : FinFlags :=
  ⟨false, true, true, true, true, true⟩

/-- Setup flags where the form-chunk write fails. -/
def formWriteFails : SetupFlags :=
  ⟨true, false, true, true, true, true, true⟩

theorem be32_length (v : Int) : (be32 v).length = 4 := rfl

theorem be16_length (v : Int) : (be16 v).length = 2 := rfl

@[simp] theorem File.seek_data (f : File) (o : Nat) : (f.seek o).data = f.data := rfl

@[simp] theorem File.seek_pos (f : File) (o : Nat) : (f.seek o).pos = o := rfl

@[simp] theorem File.write_pos (f : File) (bs : List Nat) :
    (f.write bs).pos = f.pos + bs.length := rfl

theorem File.write_data_of_fits (f : File) (bs : List Nat)
    (h : f.pos + bs.length ≤ f.data.length) :
    (f.write bs).data =
      f.data.take f.pos ++ bs ++ f.data.drop (f.pos + bs.length) := by
  have hp : f.pos ≤ f.data.length := by omega
  simp [File.write, Nat.sub_eq_zero_of_le hp]

theorem File.write_length_of_fits (f : File) (bs : List Nat)
    (h : f.pos + bs.length ≤ f.data.length) :
    (f.write bs).data.length = f.data.length := by
  rw [File.write_data_of_fits f bs h]
  simp
  omega

theorem File.write_getD_of_fits (f : File) (bs : List Nat) (i : Nat)
    (h : f.pos + bs.length ≤ f.data.length) :
    (f.write bs).data.getD i 0 =
      if f.pos ≤ i ∧ i < f.pos + bs.length then bs.getD (i - f.pos) 0
      else f.data.getD i 0 := by
  have hp : f.pos ≤ f.data.length := by omega
  have hlt : (f.data.take f.pos).length = f.pos := by
    simp [Nat.min_eq_left hp]
  rw [File.write_data_of_fits f bs h]
  rcases Nat.lt_or_ge i f.pos with hi | hi
  · rw [if_neg (by omega)]
    rw [List.getD_append _ _ _ _ (by simp [hlt]; omega)]
    rw [List.getD_append _ _ _ _ (by omega)]
    simp [List.getD_eq_getElem?_getD, List.getElem?_take, hi]
  · rcases Nat.lt_or_ge i (f.pos + bs.length) with hi2 | hi2
    · rw [if_pos ⟨hi, hi2⟩]
      rw [List.getD_append _ _ _ _ (by simp [hlt]; omega)]
      rw [List.getD_append_right _ _ _ _ (by omega)]
      rw [hlt]
    · rw [if_neg (by omega)]
      rw [List.getD_append_right _ _ _ _ (by simp [hlt]; omega)]
      simp only [List.getD_eq_getElem?_getD, List.getElem?_drop, List.length_append, hlt]
      have : f.pos + bs.length + (i - (f.pos + bs.length)) = i := by omega
      rw [this]

/-- Appending at a cursor that sits at the end of the file is a plain
append. -/
theorem File.write_append_at_end (f : File) (bs : List Nat)
    (h : f.pos = f.data.length) :
    (f.write bs).data = f.data ++ bs ∧ (f.write bs).pos = f.data.length + bs.length := by
  constructor
  · simp [File.write, h, List.drop_eq_nil_of_le]
  · simp [File.write, h]

/-- Byte-level characterization of the size patch on any file that already
holds at least the first 46 header bytes: the three 4-byte fields at
offsets 4, 22 and 42 are overwritten with the finalize formulas and every
other byte is untouched. -/
theorem finalize_char (n : Nat) (f : File) (h : 46 ≤ f.data.length) :
    (finalize n f).data.length = f.data.length ∧
    ∀ i, i < f.data.length →
      (finalize n f).data.getD i 0 =
        if 4 ≤ i ∧ i < 8 then (be32 (50 * n)).getD (i - 4) 0
        else if 22 ≤ i ∧ i < 26 then (be32 n).getD (i - 22) 0
        else if 42 ≤ i ∧ i < 46 then (be32 (4 * n + 8)).getD (i - 42) 0
        else f.data.getD i 0 := by
  have h1 : (f.seek 4).pos + (be32 (50 * n)).length ≤ (f.seek 4).data.length := by
    simp only [File.seek_pos, File.seek_data, be32_length]
    omega
  have l1 : ((f.seek 4).write (be32 (50 * n))).data.length = f.data.length := by
    rw [File.write_length_of_fits _ _ h1, File.seek_data]
  have h2 : (((f.seek 4).write (be32 (50 * n))).seek 22).pos + (be32 n).length ≤
      (((f.seek 4).write (be32 (50 * n))).seek 22).data.length := by
    simp only [File.seek_pos, File.seek_data, be32_length, l1]
    omega
  have l2 : ((((f.seek 4).write (be32 (50 * n))).seek 22).write (be32 n)).data.length =
      f.data.length := by
    rw [File.write_length_of_fits _ _ h2, File.seek_data, l1]
  have h3 : (((((f.seek 4).write (be32 (50 * n))).seek 22).write (be32 n)).seek 42).pos +
      (be32 (4 * n + 8)).length ≤
      (((((f.seek 4).write (be32 (50 * n))).seek 22).write (be32 n)).seek 42).data.length := by
    simp only [File.seek_pos, File.seek_data, be32_length, l2]
    omega
  have l3 : (finalize n f).data.length = f.data.length := by
    show ((((((f.seek 4).write (be32 (50 * n))).seek 22).write (be32 n)).seek 42).write
        (be32 (4 * n + 8))).data.length = f.data.length
    rw [File.write_length_of_fits _ _ h3, File.seek_data, l2]
  refine ⟨l3, ?_⟩
  intro i hi
  show ((((((f.seek 4).write (be32 (50 * n))).seek 22).write (be32 n)).seek 42).write
      (be32 (4 * n + 8))).data.getD i 0 = _
  rw [File.write_getD_of_fits _ _ _ h3]
  simp only [File.seek_pos, File.seek_data, be32_length]
  rw [File.write_getD_of_fits _ _ _ h2]
  simp only [File.seek_pos, File.seek_data, be32_length]
  rw [File.write_getD_of_fits _ _ _ h1]
  simp only [File.seek_pos, File.seek_data, be32_length]
  split_ifs <;> first | rfl | omega

/-- Appending a buffer at an end-positioned cursor extends the data and
keeps the cursor at the end. -/
theorem writeBuf_at_end (f : File) (buf : List Int) (h : f.pos = f.data.length) :
    (writeBuf f buf).data = f.data ++ (buf.map be32).flatten ∧
    (writeBuf f buf).pos = (writeBuf f buf).data.length := by
  have hw := File.write_append_at_end f (buf.map be32).flatten h
  refine ⟨hw.1, ?_⟩
  show (f.write (buf.map be32).flatten).pos = (f.write (buf.map be32).flatten).data.length
  rw [hw.2, hw.1]
  simp

/-- The capture loop only appends to the file: the final data extends the
initial data and the cursor stays at the end. -/
theorem loop_extends (evs : List Ev) :
    ∀ st : LoopState, st.file.pos = st.file.data.length →
      ∃ rest, (loop evs st).1.file.data = st.file.data ++ rest ∧
        (loop evs st).1.file.pos = (loop evs st).1.file.data.length := by
  induction evs with
  | nil =>
    intro st h
    exact ⟨[], by simp [loop], by simp [loop, h]⟩
  | cons e rest ih =>
    cases e with
    | done =>
      intro st h
      exact ⟨[], by simp [loop], by simp [loop, h]⟩
    | sig =>
      intro st h
      exact ⟨[], by simp [loop], by simp [loop, h]⟩
    | tick readOk newBuf =>
      intro st h
      have hw := writeBuf_at_end st.file (if readOk then newBuf else st.buf) h
      have hpos : (tickStep st readOk newBuf).file.pos =
          (tickStep st readOk newBuf).file.data.length := hw.2
      obtain ⟨r, hr, hp⟩ := ih (tickStep st readOk newBuf) hpos
      refine ⟨((if readOk then newBuf else st.buf).map be32).flatten ++ r, ?_, ?_⟩
      · rw [show loop (Ev.tick readOk newBuf :: rest) st = loop rest (tickStep st readOk newBuf)
            from rfl]
        rw [hr, ← List.append_assoc, ← hw.1]
        rfl
      · exact hp

/-- The sample counter advances by exactly 64 per executed tick. -/
theorem loop_numSamples (evs : List Ev) :
    ∀ st : LoopState, st.buf.length = 64 → (∀ e ∈ evs, e.wf) →
      (loop evs st).1.numSamples = st.numSamples + 64 * ticksRun evs := by
  induction evs with
  | nil =>
    intro st _ _
    simp [loop, ticksRun]
  | cons e rest ih =>
    cases e with
    | done =>
      intro st _ _
      simp [loop, ticksRun]
    | sig =>
      intro st _ _
      simp [loop, ticksRun]
    | tick readOk newBuf =>
      intro st hb hw
      have hnb : newBuf.length = 64 := hw (Ev.tick readOk newBuf) (by simp)
      have hb2 : (tickStep st readOk newBuf).buf.length = 64 := by
        cases readOk <;> simpa [tickStep]
      have hrest : ∀ e ∈ rest, e.wf := fun e he => hw e (by simp [he])
      rw [show loop (Ev.tick readOk newBuf :: rest) st = loop rest (tickStep st readOk newBuf)
          from rfl]
      rw [ih (tickStep st readOk newBuf) hb2 hrest]
      have hn : (tickStep st readOk newBuf).numSamples = st.numSamples + 64 := by
        cases readOk <;> simp [tickStep, hb, hnb]
      rw [hn]
      show st.numSamples + 64 + 64 * ticksRun rest = st.numSamples + 64 * (ticksRun rest + 1)
      ring

/-- Scrubbing read errors does not change the number of executed ticks. -/
theorem ticksRun_scrub (evs : List Ev) :
    ticksRun (scrubReadErrors evs) = ticksRun evs := by
  induction evs with
  | nil => rfl
  | cons e rest ih =>
    cases e with
    | done => rfl
    | sig => rfl
    | tick readOk newBuf => simp [scrubReadErrors, ticksRun, ih]

/-- Scrubbing read errors preserves event well-formedness. -/
theorem scrub_wf (evs : List Ev) (hw : ∀ e ∈ evs, e.wf) :
    ∀ e ∈ scrubReadErrors evs, e.wf := by
  induction evs with
  | nil => simp [scrubReadErrors]
  | cons e rest ih =>
    cases e with
    | done => simpa [scrubReadErrors] using hw
    | sig => simpa [scrubReadErrors] using hw
    | tick readOk newBuf =>
      intro x hx
      rcases List.mem_cons.1 hx with hx | hx
      · subst hx
        exact hw (Ev.tick readOk newBuf) (by simp)
      · exact ih (fun y hy => hw y (by simp [hy])) x hx

/-- The teardown steps `Run` executes, per exit path. -/
theorem runFull_actions (fl : SetupFlags) (td : TeardownFlags) (evs : List Ev) :
    (runFull fl td evs).actions.map Prod.fst =
      if fl.createOk = false then []
      else if fl.formOk = false then [Action.closeFile]
      else if fl.commOk = false then [Action.closeFile]
      else if fl.soundOk = false then [Action.closeFile]
      else if fl.paInitOk = false then [Action.patchSizes, Action.closeFile]
      else if fl.streamOpenOk = false then
        [Action.paTerminate, Action.patchSizes, Action.closeFile]
      else if fl.streamStartOk = false then
        [Action.streamClose, Action.paTerminate, Action.patchSizes, Action.closeFile]
      else
        [Action.streamStop, Action.streamClose, Action.paTerminate,
         Action.patchSizes, Action.closeFile] := by
  unfold runFull
  split_ifs <;> rfl

/-- Bytes of the final session file below offset 46 and outside the three
patched fields agree with the header as first written. -/
theorem sessionFile_getD_lt46 (evs : List Ev) (i : Nat) (hi : i < 46)
    (h4 : ¬(4 ≤ i ∧ i < 8)) (h22 : ¬(22 ≤ i ∧ i < 26)) (h42 : ¬(42 ≤ i ∧ i < 46)) :
    (sessionFile evs).data.getD i 0 = headerFile.data.getD i 0 := by
  obtain ⟨rest, hr, _⟩ := loop_extends evs initState (by decide)
  have hil : initState.file.data.length = 54 := by decide
  have hlen : 46 ≤ (loop evs initState).1.file.data.length := by
    rw [hr, List.length_append, hil]
    omega
  have hc := (finalize_char (loop evs initState).1.numSamples
    (loop evs initState).1.file hlen).2 i (by omega)
  show (finalize (loop evs initState).1.numSamples (loop evs initState).1.file).data.getD i 0 = _
  rw [hc, if_neg h4, if_neg h22, if_neg h42, hr]
  rw [List.getD_append _ _ _ _ (by omega)]
  rfl

end AudioRecorder

namespace AudioRecorder

/-- C1: for every sample count n (including 0), finalize overwrites exactly
three big-endian int32 fields of the already-written header — 50*n at
offset 4, n at offset 22, 4*n+8 at offset 42 — and changes no other byte. -/
theorem finalize_writes_three_patches (n : Nat) (f : File) (h : 54 ≤ f.data.length) :
    (finalize n f).data.length = f.data.length ∧
    ∀ i, i < f.data.length →
      (finalize n f).data.getD i 0 =
        if 4 ≤ i ∧ i < 8 then (be32 (50 * n)).getD (i - 4) 0
        else if 22 ≤ i ∧ i < 26 then (be32 n).getD (i - 22) 0
        else if 42 ≤ i ∧ i < 46 then (be32 (4 * n + 8)).getD (i - 42) 0
        else f.data.getD i 0 :=
  finalize_char n f (by omega)

/-- Witness for C1 at n = 3 on the freshly written header. -/
theorem finalize_writes_three_patches_witness :
    54 ≤ headerFile.data.length ∧
    ((finalize 3 headerFile).data.length = headerFile.data.length ∧
      ∀ i, i < headerFile.data.length →
        (finalize 3 headerFile).data.getD i 0 =
          if 4 ≤ i ∧ i < 8 then (be32 (50 * 3)).getD (i - 4) 0
          else if 22 ≤ i ∧ i < 26 then (be32 3).getD (i - 22) 0
          else if 42 ≤ i ∧ i < 46 then (be32 (4 * 3 + 8)).getD (i - 42) 0
          else headerFile.data.getD i 0) :=
  ⟨by decide, finalize_writes_three_patches 3 headerFile (by decide)⟩

/-- C2: the header written before any samples occupies offsets 0-53 with
the fixed layout — form marker, zero total-bytes placeholder, format
marker, common-chunk marker, int32 18, int16 1, zero sample-count
placeholder, int16 32, the 10 sample-rate bytes, sound-chunk marker and
three int32 zeros — and raw sample data begins at offset 54. -/
theorem header_layout_bytes :
    (headerFile.data.length = 54 ∧ headerFile.pos = 54 ∧
      headerFile.data.take 4 = ascii "FORM" ∧
      (headerFile.data.drop 4).take 4 = be32 0 ∧
      (headerFile.data.drop 8).take 4 = ascii "AIFF" ∧
      (headerFile.data.drop 12).take 4 = ascii "COMM" ∧
      (headerFile.data.drop 16).take 4 = be32 18 ∧
      (headerFile.data.drop 20).take 2 = be16 1 ∧
      (headerFile.data.drop 22).take 4 = be32 0 ∧
      (headerFile.data.drop 26).take 2 = be16 32 ∧
      (headerFile.data.drop 28).take 10 = [0x40, 0x0e, 0xac, 0x44, 0, 0, 0, 0, 0, 0] ∧
      (headerFile.data.drop 38).take 4 = ascii "SSND" ∧
      (headerFile.data.drop 42).take 4 = be32 0 ∧
      (headerFile.data.drop 46).take 4 = be32 0 ∧
      headerFile.data.drop 50 = be32 0) ∧
    ∀ buf : List Int,
      (writeBuf headerFile buf).data = headerFile.data ++ (buf.map be32).flatten :=
  ⟨by decide, fun buf => (writeBuf_at_end headerFile buf (by decide)).1⟩

/-- C3 counterexample: with every setup step succeeding and a signal as the
first loop event, the loop stops via the signal path, yet the size-patch
step still executes (Go defers run on `return`), contradicting the claim
that signal-triggered stop bypasses finalize. -/
theorem signal_stop_runs_finalize_cex :
    (runFull allSetupOk allTdOk [Ev.sig]).stop = some Stop.signal ∧
    (Action.patchSizes, true) ∈ (runFull allSetupOk allTdOk [Ev.sig]).actions := by
  decide

/-- C3 amended: when a signal is received the loop returns immediately
(events after the signal are never processed), but the deferred size patch
still runs before `Run` exits — signal stop executes the same five
teardown steps as a clean stop, finalize included. -/
theorem signal_stop_immediate_teardown (td : TeardownFlags) (rest : List Ev) :
    runFull allSetupOk td (Ev.sig :: rest) = runFull allSetupOk td [Ev.sig] ∧
    (runFull allSetupOk td (Ev.sig :: rest)).actions =
      [(Action.streamStop, td.stopOk),
       (Action.streamClose, td.closeStreamOk),
       (Action.paTerminate, td.termOk),
       (Action.patchSizes, (finalizeReport td.fin).2),
       (Action.closeFile, td.closeFileOk)] ∧
    (runFull allSetupOk td (Ev.sig :: rest)).stop = some Stop.signal :=
  ⟨rfl, rfl, rfl⟩

/-- C4 counterexample: when the first seek of the size patch fails but the
remaining operations succeed, an error occurred during the patches yet the
reported finalize status is success — the claim that the user-visible
status reflects any seek/write error is false. -/
theorem finalize_error_unreported_cex :
    (FOp.seekTotal, false) ∈ (finalizeReport earlySeekFails).1 ∧
    (finalizeReport earlySeekFails).2 = true := by
  decide

/-- C4 amended: finalize never early-aborts — all six seek/write operations
are always attempted, in source order — but the reported status is exactly
the result of the final write (offset 42): each earlier operation's error
is overwritten in the shared `err` variable and never reported. -/
theorem finalize_best_effort_report (fl : FinFlags) :
    (finalizeReport fl).1 = finalizeStmts fl ∧
    (finalizeReport fl).1.map Prod.fst =
      [FOp.seekTotal, FOp.writeTotal, FOp.seekCount,
       FOp.writeCount, FOp.seekSnd, FOp.writeSnd] ∧
    (finalizeReport fl).2 = fl.writeSndOk :=
  ⟨rfl, rfl, rfl⟩

/-- C5: a tick whose device read fails neither terminates the loop nor
skips the rest of the tick — the unrefreshed buffer is still appended and
the counter still advances by 64 — so the final sample count equals that
of an error-free run with the same ticks. -/
theorem read_error_tick_still_counts (st : LoopState) (newBuf : List Int)
    (evs : List Ev) (h : st.buf.length = 64) (hw : ∀ e ∈ evs, e.wf) :
    (tickStep st false newBuf).file = writeBuf st.file st.buf ∧
    (tickStep st false newBuf).buf = st.buf ∧
    (tickStep st false newBuf).numSamples = st.numSamples + 64 ∧
    (loop evs st).1.numSamples = (loop (scrubReadErrors evs) st).1.numSamples := by
  refine ⟨rfl, rfl, by simp [tickStep, h], ?_⟩
  rw [loop_numSamples evs st h hw,
    loop_numSamples (scrubReadErrors evs) st h (scrub_wf evs hw),
    ticksRun_scrub]

/-- Witness for C5: a failing read on the first of two ticks. -/
theorem read_error_tick_still_counts_witness :
    initState.buf.length = 64 ∧
    (∀ e ∈ [Ev.tick false (List.replicate 64 5), Ev.tick true (List.replicate 64 9),
        Ev.done], e.wf) ∧
    ((tickStep initState false (List.replicate 64 7)).file =
        writeBuf initState.file initState.buf ∧
      (tickStep initState false (List.replicate 64 7)).buf = initState.buf ∧
      (tickStep initState false (List.replicate 64 7)).numSamples =
        initState.numSamples + 64 ∧
      (loop [Ev.tick false (List.replicate 64 5), Ev.tick true (List.replicate 64 9),
          Ev.done] initState).1.numSamples =
        (loop (scrubReadErrors [Ev.tick false (List.replicate 64 5),
          Ev.tick true (List.replicate 64 9), Ev.done]) initState).1.numSamples) :=
  ⟨by decide, by decide,
    read_error_tick_still_counts initState (List.replicate 64 7)
      [Ev.tick false (List.replicate 64 5), Ev.tick true (List.replicate 64 9), Ev.done]
      (by decide) (by decide)⟩

/-- C6: on a clean stop the five teardown steps run in exactly the order
stream stop, stream close, device-library terminate, size patch, file
close; each step's reported status is its own result and every step is
attempted whatever the other steps' flags say. -/
theorem clean_stop_teardown_order (td : TeardownFlags) (evs : List Ev)
    (h : (loop evs initState).2 = Stop.clean) :
    (runFull allSetupOk td evs).actions =
      [(Action.streamStop, td.stopOk),
       (Action.streamClose, td.closeStreamOk),
       (Action.paTerminate, td.termOk),
       (Action.patchSizes, (finalizeReport td.fin).2),
       (Action.closeFile, td.closeFileOk)] ∧
    (runFull allSetupOk td evs).stop = some Stop.clean := by
  refine ⟨rfl, ?_⟩
  show some (loop evs initState).2 = some Stop.clean
  rw [h]

/-- Witness for C6: a clean stop with several teardown steps failing; all
five still run in order with their own statuses. -/
theorem clean_stop_teardown_order_witness :
    (loop [Ev.done] initState).2 = Stop.clean ∧
    ((runFull allSetupOk tdMixed [Ev.done]).actions =
      [(Action.streamStop, tdMixed.stopOk),
       (Action.streamClose, tdMixed.closeStreamOk),
       (Action.paTerminate, tdMixed.termOk),
       (Action.patchSizes, (finalizeReport tdMixed.fin).2),
       (Action.closeFile, tdMixed.closeFileOk)] ∧
     (runFull allSetupOk tdMixed [Ev.done]).stop = some Stop.clean) :=
  ⟨by decide, clean_stop_teardown_order tdMixed [Ev.done] (by decide)⟩

/-- C7: the output filename is the Unix timestamp plus the `.aiff`
extension when no name is supplied, and any non-empty base name gets the
extension appended unconditionally. -/
theorem output_filename_spec (base : String) (ts : Int) :
    outputFileName "" ts = toString ts ++ ".aiff" ∧
    (base ≠ "" → outputFileName base ts = base ++ ".aiff") := by
  constructor
  · rfl
  · intro hb
    simp [outputFileName, hb]

/-- Witness for C7: a base name that already ends in the extension still
gets it appended. -/
theorem output_filename_spec_witness :
    outputFileName "" 1700000000 = toString (1700000000 : Int) ++ ".aiff" ∧
    outputFileName "x.aiff" 1700000000 = "x.aiff" ++ ".aiff" :=
  ⟨(output_filename_spec "x.aiff" 1700000000).1,
   (output_filename_spec "x.aiff" 1700000000).2 (by decide)⟩

/-- C8 counterexample: when the form-chunk write fails, `Run` returns with
only the file-close defer registered — the file is closed but the size
patch never runs, contradicting the claim that finalize runs on every exit
path after the file is created. -/
theorem header_error_skips_finalize_cex :
    (runFull formWriteFails allTdOk []).actions = [(Action.closeFile, true)] ∧
    ∀ b, (Action.patchSizes, b) ∉ (runFull formWriteFails allTdOk []).actions := by
  decide

/-- C8 amended: the file-close defer runs exactly once on every exit path
after `os.Create` succeeds, but the size patch runs exactly once only on
exit paths reached after all three header chunks were written (its defer
is registered at line 92, after the chunk writes); on those paths the
teardown ends with the patch followed by the close, and on a header-write
failure only the close runs. -/
theorem patch_close_per_exit_path (fl : SetupFlags) (td : TeardownFlags) (evs : List Ev) :
    ((runFull fl td evs).actions.map Prod.fst).count Action.patchSizes =
      (if fl.createOk = true ∧ fl.formOk = true ∧ fl.commOk = true ∧ fl.soundOk = true
        then 1 else 0) ∧
    ((runFull fl td evs).actions.map Prod.fst).count Action.closeFile =
      (if fl.createOk = true then 1 else 0) ∧
    ((runFull fl td evs).actions.map Prod.fst).drop
        (((runFull fl td evs).actions.map Prod.fst).length - 2) =
      (if fl.createOk = true ∧ fl.formOk = true ∧ fl.commOk = true ∧ fl.soundOk = true
        then [Action.patchSizes, Action.closeFile]
        else if fl.createOk = true then [Action.closeFile] else []) := by
  obtain ⟨c, fo, co, so, pi, sop, ss⟩ := fl
  cases c <;> cases fo <;> cases co <;> cases so <;> cases pi <;> cases sop <;> cases ss <;>
    exact ⟨rfl, rfl, rfl⟩

/-- C9: the sample counter starts at 0 and grows by exactly 64 per executed
loop iteration, so the value the size patch receives is 64 times the
number of iterations and in particular a multiple of 64. -/
theorem sample_counter_invariant (evs : List Ev) (hw : ∀ e ∈ evs, e.wf) :
    (loop evs initState).1.numSamples = 64 * ticksRun evs ∧
    64 ∣ (loop evs initState).1.numSamples ∧
    sessionFile evs = finalize (64 * ticksRun evs) (loop evs initState).1.file := by
  have h := loop_numSamples evs initState (by decide) hw
  rw [show initState.numSamples = 0 from rfl, Nat.zero_add] at h
  refine ⟨h, ?_, ?_⟩
  · rw [h]
    exact dvd_mul_right 64 (ticksRun evs)
  · show finalize (loop evs initState).1.numSamples (loop evs initState).1.file = _
    rw [h]

/-- Witness for C9: two ticks (one with a read error) then a clean stop. -/
theorem sample_counter_invariant_witness :
    (∀ e ∈ [Ev.tick true (List.replicate 64 2), Ev.tick false (List.replicate 64 9),
        Ev.done], e.wf) ∧
    ((loop [Ev.tick true (List.replicate 64 2), Ev.tick false (List.replicate 64 9),
        Ev.done] initState).1.numSamples =
      64 * ticksRun [Ev.tick true (List.replicate 64 2),
        Ev.tick false (List.replicate 64 9), Ev.done] ∧
     64 ∣ (loop [Ev.tick true (List.replicate 64 2), Ev.tick false (List.replicate 64 9),
        Ev.done] initState).1.numSamples ∧
     sessionFile [Ev.tick true (List.replicate 64 2), Ev.tick false (List.replicate 64 9),
        Ev.done] =
      finalize (64 * ticksRun [Ev.tick true (List.replicate 64 2),
          Ev.tick false (List.replicate 64 9), Ev.done])
        (loop [Ev.tick true (List.replicate 64 2), Ev.tick false (List.replicate 64 9),
          Ev.done] initState).1.file) :=
  ⟨by decide,
   sample_counter_invariant
     [Ev.tick true (List.replicate 64 2), Ev.tick false (List.replicate 64 9), Ev.done]
     (by decide)⟩

/-- C10: the four chunk markers in the produced file are exactly the ASCII
strings "FORM" (offset 0), "AIFF" (offset 8), "COMM" (offset 12) and
"SSND" (offset 38), for every recording. -/
theorem aiff_markers (evs : List Ev) (j : Nat) (hj : j < 4) :
    (sessionFile evs).data.getD j 0 = (ascii "FORM").getD j 0 ∧
    (sessionFile evs).data.getD (8 + j) 0 = (ascii "AIFF").getD j 0 ∧
    (sessionFile evs).data.getD (12 + j) 0 = (ascii "COMM").getD j 0 ∧
    (sessionFile evs).data.getD (38 + j) 0 = (ascii "SSND").getD j 0 ∧
    ascii "FORM" = [70, 79, 82, 77] ∧ ascii "AIFF" = [65, 73, 70, 70] ∧
    ascii "COMM" = [67, 79, 77, 77] ∧ ascii "SSND" = [83, 83, 78, 68] := by
  refine ⟨?_, ?_, ?_, ?_, by decide, by decide, by decide, by decide⟩
  · rw [sessionFile_getD_lt46 evs j (by omega) (by omega) (by omega) (by omega)]
    interval_cases j <;> decide
  · rw [sessionFile_getD_lt46 evs (8 + j) (by omega) (by omega) (by omega) (by omega)]
    interval_cases j <;> decide
  · rw [sessionFile_getD_lt46 evs (12 + j) (by omega) (by omega) (by omega) (by omega)]
    interval_cases j <;> decide
  · rw [sessionFile_getD_lt46 evs (38 + j) (by omega) (by omega) (by omega) (by omega)]
    interval_cases j <;> decide

/-- Witness for C10: the second marker byte of a signal-stopped recording. -/
theorem aiff_markers_witness :
    (1 : Nat) < 4 ∧
    ((sessionFile [Ev.sig]).data.getD 1 0 = (ascii "FORM").getD 1 0 ∧
     (sessionFile [Ev.sig]).data.getD (8 + 1) 0 = (ascii "AIFF").getD 1 0 ∧
     (sessionFile [Ev.sig]).data.getD (12 + 1) 0 = (ascii "COMM").getD 1 0 ∧
     (sessionFile [Ev.sig]).data.getD (38 + 1) 0 = (ascii "SSND").getD 1 0 ∧
     ascii "FORM" = [70, 79, 82, 77] ∧ ascii "AIFF" = [65, 73, 70, 70] ∧
     ascii "COMM" = [67, 79, 77, 77] ∧ ascii "SSND" = [83, 83, 78, 68]) :=
  ⟨by decide, aiff_markers [Ev.sig] 1 (by decide)⟩

end AudioRecorder
